import Mathlib

/-!
Shallow embedding of `autobot.py` (jo-shawn/DynamicBot), with theorems
settling the behavioural claims about its allocation engine, command
interpreter, history tracker, notification publisher and endpoint
failover.  Python floats are modelled as exact rationals (`ℚ`); Python
`dict`s keyed by `str(netuid)` are modelled as association lists keyed
by `Int` (the string conversion is injective, so integer keys are a
faithful rendering).
-/

namespace DynamicBot

/-- One entry of the sequence returned by `sub.all_subnets()`:
`netuid`, `subnet_name`, `price`, `tao_in_emission`, `symbol`. -/
structure Subnet where
  netuid : Int
  subnet_name : String
  price : ℚ
  tao_in_emission : ℚ
  symbol : String
deriving DecidableEq, Repr

/-- One entry of `sub.get_stake_for_coldkey(...)`: fields `netuid`,
`stake` and `hotkey_ss58` are the ones the source reads. -/
structure StakePos where
  netuid : Int
  stake : ℚ
  hotkey_ss58 : String
deriving DecidableEq, Repr

/-- Association-list lookup, modelling Python `dict.get` (no default). -/
def alistGet? {α : Type} (m : List (Int × α)) (k : Int) : Option α :=
  match m with
  | [] => none
  | (k', v) :: rest => if k' = k then some v else alistGet? rest k

/-- Association-list overwrite-or-append, modelling Python `dict[k] = v`. -/
def alistSet {α : Type} (m : List (Int × α)) (k : Int) (v : α) : List (Int × α) :=
  match m with
  | [] => [(k, v)]
  | (k', v') :: rest => if k' = k then (k, v) :: rest else (k', v') :: alistSet rest k v

/-- `preferences.get(str(netuid), 1.0)` from the source. -/
def prefGet (preferences : List (Int × ℚ)) (netuid : Int) : ℚ :=
  (alistGet? preferences netuid).getD 1

/-- The effective score the source computes for a subnet:
`float(s.tao_in_emission) / float(price)` times the preference
multiplier (default `1.0`). -/
def effScore (preferences : List (Int × ℚ)) (s : Subnet) : ℚ :=
  s.tao_in_emission / s.price * prefGet preferences s.netuid

/-- A subnet the scoring loop does not `continue` past: `netuid != 0`,
not in the exclude list, and positive price. -/
def isCandidate (exclude_list : List Int) (s : Subnet) : Prop :=
  s.netuid ≠ 0 ∧ s.netuid ∉ exclude_list ∧ 0 < s.price

instance (exclude_list : List Int) (s : Subnet) : Decidable (isCandidate exclude_list s) := by
  unfold isCandidate; infer_instance

/-- The loop body of `select_best_subnet`, recursing over the subnet
list with the `(best_subnet, best_score)` accumulator.  Mirrors the
source: skip `netuid == 0 or netuid in exclude_list`, skip
`price <= 0`, and replace the accumulator only on a strictly greater
effective score (`if effective_score > best_score`). -/
def select_go (exclude_list : List Int) (preferences : List (Int × ℚ)) :
    List Subnet → Option Subnet × ℚ → Option Subnet × ℚ
  | [], acc => acc
  | s :: rest, acc =>
    let acc' :=
      if s.netuid = 0 ∨ s.netuid ∈ exclude_list then acc
      else if s.price ≤ 0 then acc
      else if acc.2 < effScore preferences s then (some s, effScore preferences s) else acc
    select_go exclude_list preferences rest acc'

/-- `select_best_subnet(subnets, exclude_list, preferences)` from the
source: accumulator starts at `(None, 0.0)`. -/
def select_best_subnet (subnets : List Subnet) (exclude_list : List Int)
    (preferences : List (Int × ℚ)) : Option Subnet × ℚ :=
  select_go exclude_list preferences subnets (none, 0)

/-- Invariant carried by the scoring loop over the processed part of
the list: a `none` accumulator means score `0` and no processed
candidate with positive effective score; a `some` accumulator is a
candidate from the processed part whose effective score is the
accumulator score, positive, strictly above every earlier processed
candidate and at least every later processed candidate. -/
def SelInv (exclude_list : List Int) (preferences : List (Int × ℚ))
    (processed : List Subnet) : Option Subnet × ℚ → Prop
  | (none, sc) => sc = 0 ∧ ∀ s ∈ processed, isCandidate exclude_list s →
      effScore preferences s ≤ 0
  | (some b, sc) => isCandidate exclude_list b ∧ effScore preferences b = sc ∧ 0 < sc ∧
      ∃ l1 l2, processed = l1 ++ b :: l2 ∧
        (∀ s ∈ l1, isCandidate exclude_list s → effScore preferences s < sc) ∧
        (∀ s ∈ l2, isCandidate exclude_list s → effScore preferences s ≤ sc)

lemma selInv_nonneg {excl : List Int} {prefs : List (Int × ℚ)} {processed : List Subnet}
    {acc : Option Subnet × ℚ} (h : SelInv excl prefs processed acc) : 0 ≤ acc.2 := by
  obtain ⟨o, sc⟩ := acc
  cases o with
  | none => simp only [SelInv] at h; simp [h.1]
  | some b => simp only [SelInv] at h; exact le_of_lt h.2.2.1

lemma selInv_le {excl : List Int} {prefs : List (Int × ℚ)} {processed : List Subnet}
    {acc : Option Subnet × ℚ} (h : SelInv excl prefs processed acc) :
    ∀ t ∈ processed, isCandidate excl t → effScore prefs t ≤ acc.2 := by
  obtain ⟨o, sc⟩ := acc
  cases o with
  | none =>
    simp only [SelInv] at h
    intro t ht hc
    exact (h.2 t ht hc).trans (by simp [h.1])
  | some b =>
    simp only [SelInv] at h
    obtain ⟨_, hb, _, l1, l2, hsplit, h1, h2⟩ := h
    intro t ht hc
    rw [hsplit] at ht
    rcases List.mem_append.mp ht with ht1 | ht2
    · exact le_of_lt (h1 t ht1 hc)
    · rcases List.mem_cons.mp ht2 with rfl | ht2
      · exact le_of_eq hb
      · exact h2 t ht2 hc

lemma selInv_extend {excl : List Int} {prefs : List (Int × ℚ)} {processed : List Subnet}
    {acc : Option Subnet × ℚ} (s : Subnet) (h : SelInv excl prefs processed acc)
    (hs : isCandidate excl s → effScore prefs s ≤ acc.2) :
    SelInv excl prefs (processed ++ [s]) acc := by
  obtain ⟨o, sc⟩ := acc
  cases o with
  | none =>
    simp only [SelInv] at h ⊢
    refine ⟨h.1, ?_⟩
    intro t ht hc
    rcases List.mem_append.mp ht with ht | ht
    · exact h.2 t ht hc
    · rcases List.mem_singleton.mp ht with rfl
      exact (hs hc).trans (by simp [h.1])
  | some b =>
    simp only [SelInv] at h ⊢
    obtain ⟨hcb, hb, hpos, l1, l2, hsplit, h1, h2⟩ := h
    refine ⟨hcb, hb, hpos, l1, l2 ++ [s], by rw [hsplit]; simp, h1, ?_⟩
    intro t ht hc
    rcases List.mem_append.mp ht with ht | ht
    · exact h2 t ht hc
    · rcases List.mem_singleton.mp ht with rfl
      exact hs hc

lemma selInv_replace {excl : List Int} {prefs : List (Int × ℚ)} {processed : List Subnet}
    {acc : Option Subnet × ℚ} {s : Subnet} (h : SelInv excl prefs processed acc)
    (hcs : isCandidate excl s) (hgt : acc.2 < effScore prefs s) :
    SelInv excl prefs (processed ++ [s]) (some s, effScore prefs s) := by
  exact ⟨hcs, rfl, lt_of_le_of_lt (selInv_nonneg h) hgt, processed, [], by simp,
    fun t ht hc => lt_of_le_of_lt (selInv_le h t ht hc) hgt, by simp⟩

lemma selInv_step (excl : List Int) (prefs : List (Int × ℚ)) (processed : List Subnet)
    (s : Subnet) (acc : Option Subnet × ℚ) (h : SelInv excl prefs processed acc) :
    SelInv excl prefs (processed ++ [s])
      (if s.netuid = 0 ∨ s.netuid ∈ excl then acc
       else if s.price ≤ 0 then acc
       else if acc.2 < effScore prefs s then (some s, effScore prefs s) else acc) := by
  by_cases h0 : s.netuid = 0 ∨ s.netuid ∈ excl
  · rw [if_pos h0]
    refine selInv_extend s h ?_
    rintro ⟨h1, h2, _⟩
    rcases h0 with h0 | h0
    exacts [absurd h0 h1, absurd h0 h2]
  · rw [if_neg h0]
    by_cases hp : s.price ≤ 0
    · rw [if_pos hp]
      refine selInv_extend s h ?_
      rintro ⟨_, _, h3⟩
      exact absurd h3 (not_lt.mpr hp)
    · rw [if_neg hp]
      push_neg at h0
      have hcs : isCandidate excl s := ⟨h0.1, h0.2, lt_of_not_le hp⟩
      by_cases hgt : acc.2 < effScore prefs s
      · rw [if_pos hgt]
        exact selInv_replace h hcs hgt
      · rw [if_neg hgt]
        exact selInv_extend s h (fun _ => not_lt.mp hgt)

lemma selInv_go (excl : List Int) (prefs : List (Int × ℚ)) (l : List Subnet) :
    ∀ processed acc, SelInv excl prefs processed acc →
      SelInv excl prefs (processed ++ l) (select_go excl prefs l acc) := by
  induction l with
  | nil => intro processed acc h; simpa [select_go] using h
  | cons s rest ih =>
    intro processed acc h
    have := ih (processed ++ [s]) _ (selInv_step excl prefs processed s acc h)
    rw [List.append_assoc] at this
    simpa [select_go] using this

lemma selInv_select (subnets : List Subnet) (excl : List Int) (prefs : List (Int × ℚ)) :
    SelInv excl prefs subnets (select_best_subnet subnets excl prefs) := by
  have := selInv_go excl prefs subnets [] (none, 0) (by simp [SelInv])
  simpa [select_best_subnet] using this

/-- C1: `select_best_subnet` returns a subnet (with its effective
score) only if that subnet has id ≠ 0, is not excluded, has positive
price, and its effective score (`emission / price × preference
multiplier`, default 1) is positive and maximal among all such
candidates; ties keep the first candidate in input order (every
earlier candidate scores strictly below it); if no candidate has a
positive effective score the result is `(none, 0)`. -/
theorem C1_select_best_subnet (subnets : List Subnet) (excl : List Int)
    (prefs : List (Int × ℚ)) :
    (∀ s sc, select_best_subnet subnets excl prefs = (some s, sc) →
      s.netuid ≠ 0 ∧ s.netuid ∉ excl ∧ 0 < s.price ∧ sc = effScore prefs s ∧ 0 < sc ∧
      (∀ t ∈ subnets, isCandidate excl t → effScore prefs t ≤ sc) ∧
      (∃ l1 l2, subnets = l1 ++ s :: l2 ∧
        ∀ t ∈ l1, isCandidate excl t → effScore prefs t < sc)) ∧
    ((∀ t ∈ subnets, isCandidate excl t → effScore prefs t ≤ 0) →
      select_best_subnet subnets excl prefs = (none, 0)) := by
  constructor
  · intro s sc heq
    have hinv := selInv_select subnets excl prefs
    rw [heq] at hinv
    have hmax := selInv_le hinv
    simp only [SelInv] at hinv
    obtain ⟨⟨h1, h2, h3⟩, hb, hpos, l1, l2, hsplit, hl1, _⟩ := hinv
    exact ⟨h1, h2, h3, hb.symm, hpos, hmax, l1, l2, hsplit, hl1⟩
  · intro hall
    have hinv := selInv_select subnets excl prefs
    rcases hsel : select_best_subnet subnets excl prefs with ⟨o, sc⟩
    rw [hsel] at hinv
    cases o with
    | some b =>
      exfalso
      simp only [SelInv] at hinv
      obtain ⟨hcb, hb, hpos, l1, l2, hsplit, _, _⟩ := hinv
      have hbmem : b ∈ subnets := by rw [hsplit]; simp
      have hle := hall b hbmem hcb
      rw [hb] at hle
      exact absurd hpos (not_lt.mpr hle)
    | none =>
      simp only [SelInv] at hinv
      rw [hinv.1]

/-- Witness for C1: on `[⟨1,"a",2,4,"x"⟩, ⟨2,"b",1,2,"y"⟩]` both
candidates have effective score 2 and the first is kept; on a list
containing only subnet 0 the result is `(none, 0)`. -/
theorem C1_select_best_subnet_witness :
    (∀ t ∈ [(⟨1, "a", 2, 4, "x"⟩ : Subnet), ⟨2, "b", 1, 2, "y"⟩],
        isCandidate [] t → effScore [] t ≤ 2) ∧
    select_best_subnet [⟨0, "root", 1, 5, "z"⟩] [] [] = (none, 0) := by
  constructor
  · have h := (C1_select_best_subnet [⟨1, "a", 2, 4, "x"⟩, ⟨2, "b", 1, 2, "y"⟩] [] []).1
      ⟨1, "a", 2, 4, "x"⟩ 2
      (by norm_num [select_best_subnet, select_go, effScore, prefGet, alistGet?])
    exact h.2.2.2.2.2.1
  · refine (C1_select_best_subnet [⟨0, "root", 1, 5, "z"⟩] [] []).2 ?_
    intro t ht hc
    rcases List.mem_singleton.mp ht with rfl
    exact absurd rfl hc.1

/-- The `/boost` branch's preference update:
`new_pref = preferences.get(str(netuid), 1.0) + 0.1`. -/
def boost_pref (prefs : List (Int × ℚ)) (netuid : Int) : List (Int × ℚ) :=
  alistSet prefs netuid (prefGet prefs netuid + 1/10)

/-- The `/slash` branch's preference update: `new_pref = current - 0.1`,
raised back to `0.1` when it falls below `0.1`. -/
def slash_pref (prefs : List (Int × ℚ)) (netuid : Int) : List (Int × ℚ) :=
  alistSet prefs netuid
    (if prefGet prefs netuid - 1/10 < 1/10 then 1/10 else prefGet prefs netuid - 1/10)

/-- `n` consecutive `/boost netuid` commands. -/
def boostN : Nat → List (Int × ℚ) → Int → List (Int × ℚ)
  | 0, p, _ => p
  | n+1, p, k => boostN n (boost_pref p k) k

/-- `n` consecutive `/slash netuid` commands. -/
def slashN : Nat → List (Int × ℚ) → Int → List (Int × ℚ)
  | 0, p, _ => p
  | n+1, p, k => slashN n (slash_pref p k) k

lemma alistGet?_set_self {α : Type} (m : List (Int × α)) (k : Int) (v : α) :
    alistGet? (alistSet m k v) k = some v := by
  induction m with
  | nil => simp [alistSet, alistGet?]
  | cons kv rest ih =>
    obtain ⟨k', v'⟩ := kv
    by_cases h : k' = k
    · simp [alistSet, alistGet?, h]
    · simp [alistSet, alistGet?, h, ih]

lemma prefGet_set_self (m : List (Int × ℚ)) (k : Int) (v : ℚ) :
    prefGet (alistSet m k v) k = v := by
  simp [prefGet, alistGet?_set_self]

lemma prefGet_boost (p : List (Int × ℚ)) (k : Int) :
    prefGet (boost_pref p k) k = prefGet p k + 1/10 := by
  simp [boost_pref, prefGet_set_self]

lemma prefGet_slash (p : List (Int × ℚ)) (k : Int) :
    prefGet (slash_pref p k) k =
      if prefGet p k - 1/10 < 1/10 then 1/10 else prefGet p k - 1/10 := by
  simp [slash_pref, prefGet_set_self]

lemma prefGet_slash_ge (p : List (Int × ℚ)) (k : Int) :
    1/10 ≤ prefGet (slash_pref p k) k := by
  rw [prefGet_slash]
  split
  · exact le_refl _
  · exact not_lt.mp (by assumption)

lemma slashN_ge (k : Int) : ∀ (n : Nat) (p : List (Int × ℚ)),
    1/10 ≤ prefGet p k → 1/10 ≤ prefGet (slashN n p k) k := by
  intro n
  induction n with
  | zero => intro p h; simpa [slashN] using h
  | succ m ih =>
    intro p _
    exact ih (slash_pref p k) (prefGet_slash_ge p k)

lemma boostN_val (k : Int) : ∀ (n : Nat) (p : List (Int × ℚ)),
    prefGet (boostN n p k) k = prefGet p k + n/10 := by
  intro n
  induction n with
  | zero => intro p; simp [boostN]
  | succ m ih =>
    intro p
    rw [boostN, ih, prefGet_boost]
    push_cast
    ring

lemma slashN_exact (k : Int) : ∀ (n : Nat) (p : List (Int × ℚ)),
    1/10 + (n : ℚ)/10 ≤ prefGet p k →
    prefGet (slashN n p k) k = prefGet p k - n/10 := by
  intro n
  induction n with
  | zero => intro p _; simp [slashN]
  | succ m ih =>
    intro p h
    have hm : (0 : ℚ) ≤ (m : ℚ)/10 := by positivity
    have hnc : ¬ (prefGet p k - 1/10 < 1/10) := by
      push_cast at h
      push_neg
      linarith
    have hval : prefGet (slash_pref p k) k = prefGet p k - 1/10 := by
      rw [prefGet_slash, if_neg hnc]
    have := ih (slash_pref p k) (by rw [hval]; push_cast at h ⊢; linarith)
    rw [slashN, this, hval]
    push_cast
    ring

/-- C3: each `/slash` stores `max(current − 0.1, 0.1)` (so repeated
`/slash` never drives the multiplier below 0.1), `/boost` stores
`current + 0.1` (default 1.0 when absent) with no upper bound, and
`n` `/boost`s followed by `n` `/slash`es on the same id restore the
starting value exactly when that value was ≥ 0.1 (the 0.1 floor is
never hit in that run, so the round trip is exact in exact
arithmetic). -/
theorem C3_pref_clamp_roundtrip (prefs : List (Int × ℚ)) (k : Int) (n : Nat)
    (h : 1/10 ≤ prefGet prefs k) :
    prefGet (slash_pref prefs k) k = max (prefGet prefs k - 1/10) (1/10) ∧
    1/10 ≤ prefGet (slashN n prefs k) k ∧
    prefGet (boost_pref prefs k) k = prefGet prefs k + 1/10 ∧
    prefGet (boostN n prefs k) k = prefGet prefs k + n/10 ∧
    (∀ M : ℚ, ∃ m : Nat, M < prefGet (boostN m prefs k) k) ∧
    prefGet (slashN n (boostN n prefs k) k) k = prefGet prefs k := by
  refine ⟨?_, slashN_ge k n prefs h, prefGet_boost prefs k, boostN_val k n prefs, ?_, ?_⟩
  · rw [prefGet_slash]
    rcases lt_or_le (prefGet prefs k - 1/10) (1/10) with hc | hc
    · rw [if_pos hc, max_eq_right (le_of_lt hc)]
    · rw [if_neg (not_lt.mpr hc), max_eq_left hc]
  · intro M
    obtain ⟨m, hm⟩ := exists_nat_gt ((M - prefGet prefs k) * 10)
    refine ⟨m, ?_⟩
    rw [boostN_val]
    linarith
  · have hb := boostN_val k n prefs
    have := slashN_exact k n (boostN n prefs k) (by rw [hb]; linarith)
    rw [this, hb]
    ring

/-- Witness for C3 at preferences `[]`, subnet id 5, `n = 10`: the
default multiplier 1.0 is ≥ 0.1 and the 10-boost/10-slash round trip
restores it. -/
theorem C3_pref_clamp_roundtrip_witness :
    (1 : ℚ)/10 ≤ prefGet [] 5 ∧
    prefGet (slashN 10 (boostN 10 [] 5) 5) 5 = prefGet [] 5 := by
  refine ⟨by norm_num [prefGet, alistGet?], ?_⟩
  exact (C3_pref_clamp_roundtrip [] 5 10 (by norm_num [prefGet, alistGet?])).2.2.2.2.2

/-- A purchase event recorded on a successful allocation: fields as the
`purchase_event` dict in `process_block`. -/
structure PurchaseEvent where
  block : Nat
  netuid : Int
  subnet_name : String
  stake_amount : ℚ
  score : ℚ
  pref_multiplier : ℚ
deriving DecidableEq, Repr

/-- The `/history` snapshot dict: wall-clock time, block height, wallet
balance, aggregate stake value, per-subnet stake amounts. -/
structure HistorySnapshot where
  time : ℚ
  block : Nat
  wallet_balance : ℚ
  stake_value : ℚ
  stakes : List (Int × ℚ)
deriving DecidableEq, Repr

/-- The mutable shared state: the config fields the interpreter mutates
(`preferences`, `exclude_list`, `stake_amount`, `paused`, plus the
read-only `validator` and `telegram_update_interval`), and the
module-level history globals plus the block loop's batch buffer. -/
structure BotState where
  preferences : List (Int × ℚ)
  exclude_list : List Int
  stake_amount : ℚ
  validator : String
  paused : Bool
  telegram_update_interval : Nat
  last_history_snapshot : Option HistorySnapshot
  accumulated_history : List PurchaseEvent
  purchase_history : List PurchaseEvent
deriving DecidableEq, Repr

/-- One cycle's view of the chain gateway: the data its queries return
and whether each fallible call succeeds (a `false` flag models the
corresponding Python call raising). -/
structure GatewayView where
  current_block : Nat
  subnets : List Subnet
  stake_info : List StakePos
  wallet_balance : ℚ
  acquire_ok : Bool
  query_ok : Bool
  stake_ok : Bool
  unstake_ok : Bool
deriving DecidableEq, Repr

/-- Outbound Telegram replies, one constructor per
`send_telegram_message` call site of the command handler. -/
inductive Reply where
  | invalid
  | pauseConfirm
  | startConfirm
  | connError
  | queryError
  | balanceSummary (wallet_balance : ℚ) (current_block : Nat) (has_stakes : Bool)
  | historyNoPrev
  | historySummary (time_diff : ℚ) (block_diff : Int) (amount_staked : ℚ)
      (stake_diff : ℚ) (pnl : ℚ) (increases : List (Int × ℚ))
  | subnetNotFound (netuid : Int)
  | subnetInfo (netuid : Int) (price : ℚ) (my_stake : ℚ) (pref : ℚ) (block : Nat)
  | newPreference (netuid : Int) (value : ℚ)
  | excludeAdded (netuid : Int)
  | excludeExists (netuid : Int)
  | usageNetuid
  | usageNumericNetuid
  | usageUnstakeArgs
  | usageUnstakeNumeric
  | unstakeDone (netuid : Int) (amount : ℚ)
  | unstakeFailed (netuid : Int)
  | usageStakeArgs
  | usageStakeNumeric
  | stakeDone (netuid : Int) (amount : ℚ)
  | stakeFailed (netuid : Int)
  | usageAmount
  | amountSet (value : ℚ)
deriving DecidableEq, Repr

/-- A stake/unstake mutation call issued to the gateway. -/
inductive ChainCall where
  | addStake (netuid : Int) (amount : ℚ)
  | unstake (netuid : Int) (amount : ℚ)
deriving DecidableEq, Repr

/-- Result of handling one inbound message: replies sent, state after,
gateway mutation calls issued, whether an uncaught exception propagated
out of the handler, and whether an acquired gateway handle was left
unclosed on exit. -/
structure CmdResult where
  replies : List Reply
  st : BotState
  chain_calls : List ChainCall
  crashed : Bool
  leaked_handle : Bool
deriving DecidableEq, Repr

/-- A reply with no mutation, no chain call, no crash, no leak. -/
def replyOnly (r : Reply) (st : BotState) : CmdResult := ⟨[r], st, [], false, false⟩

/-- ASCII lowering of one character (Python `.lower()` restricted to
the ASCII command alphabet the bot uses). -/
def lowerChar (c : Char) : Char :=
  if 'A' ≤ c ∧ c ≤ 'Z' then Char.ofNat (c.toNat + 32) else c

/-- `parts[0].lower()`. -/
def strToLower (s : String) : String := String.mk (s.data.map lowerChar)

/-- Split on whitespace, accumulating the current token reversed. -/
def splitWsGo : List Char → List Char → List String → List String
  | [], cur, acc => acc ++ [String.mk cur.reverse]
  | c :: cs, cur, acc =>
    if c.isWhitespace then splitWsGo cs [] (acc ++ [String.mk cur.reverse])
    else splitWsGo cs (c :: cur) acc

/-- Python `text.strip().split()`: split on whitespace runs, dropping
empty pieces. -/
def tokenize (text : String) : List String :=
  (splitWsGo text.data [] []).filter (fun t => t ≠ "")

/-- Decimal digit run to its value; `none` on a non-digit or an empty
run. -/
def digitsValGo : List Char → Nat → Option Nat
  | [], acc => some acc
  | c :: cs, acc => if c.isDigit then digitsValGo cs (acc * 10 + (c.toNat - 48)) else none

def digitsVal? (cs : List Char) : Option Nat :=
  if cs = [] then none else digitsValGo cs 0

/-- Python `int(s)` on the common forms: optional minus sign then
decimal digits; `none` models `ValueError`. -/
def parseInt? (s : String) : Option Int :=
  match s.data with
  | [] => none
  | c :: cs =>
    if c = '-' then (digitsVal? cs).map (fun n => -(n : Int))
    else (digitsVal? (c :: cs)).map (fun n => (n : Int))

/-- Split at the first `'.'`. -/
def splitDot : List Char → List Char × Option (List Char)
  | [] => ([], none)
  | c :: cs =>
    if c = '.' then ([], some cs)
    else ((c :: (splitDot cs).1), (splitDot cs).2)

/-- Python `float(s)` on the common forms (digits, optional single
decimal point); `none` models `ValueError`. -/
def parseRatPosChars? (cs : List Char) : Option ℚ :=
  match splitDot cs with
  | (a, none) => (digitsVal? a).map (fun n => (n : ℚ))
  | (a, some b) =>
    if b.contains '.' then none
    else
      match digitsVal? a, digitsVal? b with
      | some an, some bn => some ((an : ℚ) + (bn : ℚ) / 10 ^ b.length)
      | _, _ => none

def parseRat? (s : String) : Option ℚ :=
  match s.data with
  | [] => none
  | c :: cs =>
    if c = '-' then (parseRatPosChars? cs).map Neg.neg
    else parseRatPosChars? (c :: cs)

/-- The `/balance` branch.  With a live handle and successful queries it
builds the reply lines; formatting any position with positive amount
evaluates `stake_info.symbol` — an attribute the Python list object does
not have — so `AttributeError` propagates with no reply sent and the
handle never closed. -/
def handle_balance (gw : GatewayView) (st : BotState) : CmdResult :=
  if gw.acquire_ok = false then replyOnly .connError st
  else if gw.query_ok = false then replyOnly .queryError st
  else if gw.stake_info.any (fun p => decide (0 < p.stake)) then ⟨[], st, [], true, true⟩
  else replyOnly (.balanceSummary gw.wallet_balance gw.current_block (!gw.stake_info.isEmpty)) st

/-- `subnet_info`: netuid → (price, name), built from `all_subnets()`
skipping netuid 0, later duplicates overwriting. -/
def subnet_info_map (subnets : List Subnet) : List (Int × (ℚ × String)) :=
  (subnets.filter (fun s => s.netuid != 0)).foldl
    (fun m s => alistSet m s.netuid (s.price, s.subnet_name)) []

/-- `current_stakes`: netuid → stake amount, built from
`get_stake_for_coldkey` (no hotkey filter in the `/history` branch). -/
def current_stakes_map (stake_info : List StakePos) : List (Int × ℚ) :=
  stake_info.foldl (fun m p => alistSet m p.netuid p.stake) []

/-- Sum of an association list's values. -/
def total_of (m : List (Int × ℚ)) : ℚ := (m.map Prod.snd).sum

/-- `current_total_stake_value`: each stake amount times the price the
`subnet_info` map holds for its netuid (default 0). -/
def stake_value_of (subnets : List Subnet) (stakes : List (Int × ℚ)) : ℚ :=
  (stakes.map (fun kv =>
    kv.2 * (((alistGet? (subnet_info_map subnets) kv.1).map Prod.fst).getD 0))).sum

/-- The `current_snapshot` dict the `/history` branch builds. -/
def history_snapshot (time : ℚ) (gw : GatewayView) : HistorySnapshot :=
  ⟨time, gw.current_block, gw.wallet_balance,
   stake_value_of gw.subnets (current_stakes_map gw.stake_info),
   current_stakes_map gw.stake_info⟩

/-- The per-subnet positive increases the `/history` reply lists. -/
def history_increases (prev_stakes cur : List (Int × ℚ)) : List (Int × ℚ) :=
  cur.filterMap (fun kv =>
    if 0 < kv.2 - (alistGet? prev_stakes kv.1).getD 0 then
      some (kv.1, kv.2 - (alistGet? prev_stakes kv.1).getD 0)
    else none)

/-- The `/history` branch. -/
def handle_history (time : ℚ) (gw : GatewayView) (st : BotState) : CmdResult :=
  if gw.acquire_ok = false then replyOnly .connError st
  else if gw.query_ok = false then replyOnly .queryError st
  else
    let snap := history_snapshot time gw
    match st.last_history_snapshot with
    | none =>
      ⟨[.historyNoPrev], { st with last_history_snapshot := some snap }, [], false, false⟩
    | some prev =>
      let cur := current_stakes_map gw.stake_info
      ⟨[.historySummary (time - prev.time) ((gw.current_block : Int) - (prev.block : Int))
          ((st.accumulated_history.map PurchaseEvent.stake_amount).sum)
          (total_of cur - total_of prev.stakes)
          ((gw.wallet_balance + snap.stake_value) - (prev.wallet_balance + prev.stake_value))
          (history_increases prev.stakes cur)],
       { st with last_history_snapshot := some snap, accumulated_history := [] },
       [], false, false⟩

/-- The `/info <netuid>` branch. -/
def handle_info (netuid : Int) (gw : GatewayView) (st : BotState) : CmdResult :=
  if gw.acquire_ok = false then replyOnly .connError st
  else if gw.query_ok = false then replyOnly .queryError st
  else
    match gw.subnets.find? (fun s => s.netuid == netuid) with
    | none => replyOnly (.subnetNotFound netuid) st
    | some target =>
      let my_stake := ((gw.stake_info.find? (fun p =>
        p.netuid == netuid && p.hotkey_ss58 == st.validator)).map StakePos.stake).getD 0
      replyOnly (.subnetInfo netuid target.price my_stake
        (prefGet st.preferences netuid) gw.current_block) st

/-- The `/unstake <netuid> <amount>` branch: the call is issued once,
a failure is only reported, the handle is closed either way. -/
def handle_unstake (netuid : Int) (parts : List String) (gw : GatewayView)
    (st : BotState) : CmdResult :=
  match parts.get? 2 with
  | none => replyOnly .usageUnstakeArgs st
  | some a2 =>
    match parseRat? a2 with
    | none => replyOnly .usageUnstakeNumeric st
    | some amount =>
      if gw.acquire_ok = false then replyOnly .connError st
      else if gw.unstake_ok then
        ⟨[.unstakeDone netuid amount], st, [.unstake netuid amount], false, false⟩
      else ⟨[.unstakeFailed netuid], st, [.unstake netuid amount], false, false⟩

/-- The `/stake <netuid> <amount>` branch. -/
def handle_stake_cmd (netuid : Int) (parts : List String) (gw : GatewayView)
    (st : BotState) : CmdResult :=
  match parts.get? 2 with
  | none => replyOnly .usageStakeArgs st
  | some a2 =>
    match parseRat? a2 with
    | none => replyOnly .usageStakeNumeric st
    | some amount =>
      if gw.acquire_ok = false then replyOnly .connError st
      else if gw.stake_ok then
        ⟨[.stakeDone netuid amount], st, [.addStake netuid amount], false, false⟩
      else ⟨[.stakeFailed netuid], st, [.addStake netuid amount], false, false⟩

/-- The `/amount <value>` branch: `float(parts[1])` guarded only by
`except ValueError`, so a missing argument raises `IndexError`, which
propagates uncaught. -/
def handle_amount (parts : List String) (st : BotState) : CmdResult :=
  match parts.get? 1 with
  | none => ⟨[], st, [], true, false⟩
  | some a1 =>
    match parseRat? a1 with
    | none => replyOnly .usageAmount st
    | some v => ⟨[.amountSet v], { st with stake_amount := v }, [], false, false⟩

/-- The six commands that share the netuid-parsing guard. -/
def netuidCmds : List String := ["/info", "/boost", "/slash", "/exclude", "/unstake", "/stake"]

/-- `handle_telegram_command` on the whitespace-split parts: the full
if-chain of the source.  A first token matching no branch falls off the
end: nothing is sent and nothing mutated. -/
def handle_parts (parts : List String) (time : ℚ) (gw : GatewayView) (st : BotState) :
    CmdResult :=
  match parts with
  | [] => ⟨[.invalid], st, [], false, false⟩
  | p0 :: _ =>
    let cmd := strToLower p0
    if cmd = "/pause" then ⟨[.pauseConfirm], { st with paused := true }, [], false, false⟩
    else if cmd = "/start" then ⟨[.startConfirm], { st with paused := false }, [], false, false⟩
    else if cmd = "/balance" then handle_balance gw st
    else if cmd = "/history" then handle_history time gw st
    else if cmd ∈ netuidCmds then
      match parts.get? 1 with
      | none => replyOnly .usageNetuid st
      | some a1 =>
        match parseInt? a1 with
        | none => replyOnly .usageNumericNetuid st
        | some netuid =>
          if cmd = "/info" then handle_info netuid gw st
          else if cmd = "/boost" then
            ⟨[.newPreference netuid (prefGet st.preferences netuid + 1/10)],
             { st with preferences := boost_pref st.preferences netuid }, [], false, false⟩
          else if cmd = "/slash" then
            ⟨[.newPreference netuid (if prefGet st.preferences netuid - 1/10 < 1/10
                then 1/10 else prefGet st.preferences netuid - 1/10)],
             { st with preferences := slash_pref st.preferences netuid }, [], false, false⟩
          else if cmd = "/exclude" then
            if netuid ∈ st.exclude_list then replyOnly (.excludeExists netuid) st
            else ⟨[.excludeAdded netuid],
              { st with exclude_list := st.exclude_list ++ [netuid] }, [], false, false⟩
          else if cmd = "/unstake" then handle_unstake netuid parts gw st
          else handle_stake_cmd netuid parts gw st
    else if cmd = "/amount" then handle_amount parts st
    else ⟨[], st, [], false, false⟩

/-- `handle_telegram_command` on the raw message text. -/
def handle_telegram_command (text : String) (time : ℚ) (gw : GatewayView)
    (st : BotState) : CmdResult :=
  handle_parts (tokenize text) time gw st

/-- One block-cycle iteration's observable outcome: the computed
selection (used for the display row), the `add_stake` calls issued, the
two buffers afterwards, and whether a Telegram digest was dispatched. -/
structure BlockOutcome where
  chosen : Option Subnet × ℚ
  chain_calls : List (Int × ℚ)
  purchase_history : List PurchaseEvent
  accumulated_history : List PurchaseEvent
  digest_sent : Bool
deriving DecidableEq, Repr

/-- The allocation part of `process_block`: compute the selection, and
when not paused, a candidate is chosen and its score positive, issue one
`add_stake` call for `stake_amount * pref_multiplier`; append one
purchase event to both buffers only when the call succeeds (a failure is
only displayed). -/
def alloc_phase (st : BotState) (current_block : Nat) (subnets : List Subnet)
    (stake_ok : Bool) :
    (Option Subnet × ℚ) × List (Int × ℚ) × List PurchaseEvent × List PurchaseEvent :=
  match select_best_subnet subnets st.exclude_list st.preferences with
  | (some chosen_subnet, best_score) =>
    if st.paused = false ∧ 0 < best_score then
      let pref_multiplier := prefGet st.preferences chosen_subnet.netuid
      let actual_stake := st.stake_amount * pref_multiplier
      if stake_ok then
        ((some chosen_subnet, best_score), [(chosen_subnet.netuid, actual_stake)],
         st.purchase_history ++ [⟨current_block, chosen_subnet.netuid,
           chosen_subnet.subnet_name, actual_stake, best_score, pref_multiplier⟩],
         st.accumulated_history ++ [⟨current_block, chosen_subnet.netuid,
           chosen_subnet.subnet_name, actual_stake, best_score, pref_multiplier⟩])
      else ((some chosen_subnet, best_score), [(chosen_subnet.netuid, actual_stake)],
        st.purchase_history, st.accumulated_history)
    else ((some chosen_subnet, best_score), [], st.purchase_history, st.accumulated_history)
  | (none, best_score) => ((none, best_score), [], st.purchase_history, st.accumulated_history)

/-- The notification-publisher part of `process_block`: dispatch a
digest when the block height is a multiple of the interval and the
batch buffer is non-empty, then clear the batch buffer; the dispatch's
own success is irrelevant because `send_telegram_message` swallows every
exception (the `_send_ok` argument is ignored for that reason). -/
def publish_phase (interval : Nat) (current_block : Nat) (_send_ok : Bool)
    (purchase_history : List PurchaseEvent) : Bool × List PurchaseEvent :=
  if current_block % interval = 0 ∧ purchase_history ≠ [] then (true, [])
  else (false, purchase_history)

/-- `process_block`: allocation then publication (chain queries, the
display table and `wait_for_block` carry no further state). -/
def process_block (st : BotState) (current_block : Nat) (subnets : List Subnet)
    (stake_ok send_ok : Bool) : BlockOutcome :=
  let a := alloc_phase st current_block subnets stake_ok
  let p := publish_phase st.telegram_update_interval current_block send_ok a.2.2.1
  ⟨a.1, a.2.1, p.2, a.2.2.2, p.1⟩

/-- One inbound Telegram update as the poll loop sees it: its id and,
when the update carries a message or channel post with text, that text. -/
structure TgUpdate where
  update_id : Int
  text : Option String
deriving DecidableEq, Repr

/-- How one iteration of `poll_telegram_updates` ends: the loop either
sleeps and polls again, or an uncaught exception terminates it. -/
inductive PollStep where
  | continued (st : BotState) (offset : Int)
  | died (st : BotState) (offset : Int)
deriving DecidableEq, Repr

/-- The update-processing loop of one poll iteration: the cursor
advances to `max(offset, update_id + 1)` per update, each textual
message is handled, and a handler exception propagates — there is no
try/except around `handle_telegram_command`. -/
def poll_process : List TgUpdate → ℚ → GatewayView → BotState → Int → PollStep
  | [], _, _, st, offset => .continued st offset
  | u :: rest, time, gw, st, offset =>
    match u.text with
    | none => poll_process rest time gw st (max offset (u.update_id + 1))
    | some t =>
      let r := handle_telegram_command t time gw st
      if r.crashed then .died r.st (max offset (u.update_id + 1))
      else poll_process rest time gw r.st (max offset (u.update_id + 1))

/-- One iteration of `poll_telegram_updates`: only the fetch
(`requests.get` + `.json()`) sits inside the try/except. -/
def poll_iteration (fetched : Except String (List TgUpdate)) (time : ℚ)
    (gw : GatewayView) (st : BotState) (offset : Int) : PollStep :=
  match fetched with
  | .error _ => .continued st offset
  | .ok updates => poll_process updates time gw st offset

/-- `get_and_test_subtensor` under its tenacity decorator, for one
endpoint: `behavior` lists which verification attempts would succeed; up
to `budget` attempts are made starting at index `i`.  Returns the
outcome — a handle `(endpoint, attempt)` or the last attempt's error —
and the trace of attempts actually made. -/
def tryFrom (name : String) (behavior : List Bool) :
    Nat → Nat → Except (String × Nat) (String × Nat) × List (String × Nat)
  | _, 0 => (.error (name, 0), [])
  | i, k+1 =>
    if behavior.getD i false then (.ok (name, i), [(name, i)])
    else if k = 0 then (.error (name, i), [(name, i)])
    else
      ((tryFrom name behavior (i+1) k).1, (name, i) :: (tryFrom name behavior (i+1) k).2)

/-- `stop_after_attempt(3)`: three attempts per endpoint. -/
def get_and_test_subtensor (name : String) (behavior : List Bool) :
    Except (String × Nat) (String × Nat) × List (String × Nat) :=
  tryFrom name behavior 0 3

/-- The endpoint loop of `get_working_subtensor`, carrying `last_error`. -/
def get_working_go :
    List (String × List Bool) → Option (String × Nat) →
    Except (Option (String × Nat)) (String × Nat) × List (String × Nat)
  | [], lastErr => (.error lastErr, [])
  | (name, b) :: rest, _ =>
    match get_and_test_subtensor name b with
    | (.ok h, t) => (.ok h, t)
    | (.error e, t) => ((get_working_go rest (some e)).1, t ++ (get_working_go rest (some e)).2)

/-- `get_working_subtensor()`: try endpoints in list order, return the
first verified handle, or fail carrying the last observed error. -/
def get_working_subtensor (endpoints : List (String × List Bool)) :
    Except (Option (String × Nat)) (String × Nat) × List (String × Nat) :=
  get_working_go endpoints none

/-- C2: with the paused flag set, the block cycle still computes the
selection but issues no stake call and appends no purchase event to
either buffer; when not paused with a positively-scored candidate and a
successful commit, the committed amount is `stake_amount ×
preference_multiplier(chosen id)` and exactly one purchase event is
appended to both buffers. -/
theorem C2_pause_frame (st : BotState) (current_block : Nat) (subnets : List Subnet)
    (stake_ok send_ok : Bool) :
    (st.paused = true →
      (process_block st current_block subnets stake_ok send_ok).chosen
        = select_best_subnet subnets st.exclude_list st.preferences ∧
      (process_block st current_block subnets stake_ok send_ok).chain_calls = [] ∧
      (process_block st current_block subnets stake_ok send_ok).accumulated_history
        = st.accumulated_history ∧
      (process_block st current_block subnets stake_ok send_ok).purchase_history
        = (publish_phase st.telegram_update_interval current_block send_ok
            st.purchase_history).2) ∧
    (∀ s sc, st.paused = false →
      select_best_subnet subnets st.exclude_list st.preferences = (some s, sc) →
      0 < sc → stake_ok = true →
      (process_block st current_block subnets stake_ok send_ok).chain_calls
        = [(s.netuid, st.stake_amount * prefGet st.preferences s.netuid)] ∧
      (process_block st current_block subnets stake_ok send_ok).accumulated_history
        = st.accumulated_history ++ [⟨current_block, s.netuid, s.subnet_name,
            st.stake_amount * prefGet st.preferences s.netuid, sc,
            prefGet st.preferences s.netuid⟩] ∧
      (alloc_phase st current_block subnets stake_ok).2.2.1
        = st.purchase_history ++ [⟨current_block, s.netuid, s.subnet_name,
            st.stake_amount * prefGet st.preferences s.netuid, sc,
            prefGet st.preferences s.netuid⟩]) := by
  constructor
  · intro hp
    rcases h : select_best_subnet subnets st.exclude_list st.preferences with ⟨o, bs⟩
    cases o with
    | none => simp [process_block, alloc_phase, h]
    | some s => simp [process_block, alloc_phase, h, hp]
  · intro s sc hp hsel hpos hsok
    simp [process_block, alloc_phase, publish_phase, hsel, hp, hpos, hsok]

/-- Witness for C2: a paused state issues no call; the same state
unpaused commits `stake_amount × multiplier` and appends the event. -/
theorem C2_pause_frame_witness :
    (process_block ⟨[], [], 1, "v", true, 10, none, [], []⟩ 5 [⟨1, "a", 2, 4, "x"⟩]
        true true).chain_calls = [] ∧
    (process_block ⟨[], [], 1, "v", false, 10, none, [], []⟩ 5 [⟨1, "a", 2, 4, "x"⟩]
        true true).chain_calls = [(1, (1 : ℚ) * prefGet [] 1)] := by
  constructor
  · exact ((C2_pause_frame ⟨[], [], 1, "v", true, 10, none, [], []⟩ 5 [⟨1, "a", 2, 4, "x"⟩]
      true true).1 rfl).2.1
  · exact ((C2_pause_frame ⟨[], [], 1, "v", false, 10, none, [], []⟩ 5 [⟨1, "a", 2, 4, "x"⟩]
      true true).2 ⟨1, "a", 2, 4, "x"⟩ 2 rfl
      (by norm_num [select_best_subnet, select_go, effScore, prefGet, alistGet?])
      (by norm_num) rfl).1

/-- C6: a digest is dispatched exactly when the block height is an
exact multiple of the configured (positive) interval and the batch
buffer (after this cycle's allocation) is non-empty; in that case the
batch buffer is empty afterwards regardless of dispatch success, and in
every other case the publisher leaves it unchanged. -/
theorem C6_notification_cadence (st : BotState) (current_block : Nat)
    (subnets : List Subnet) (stake_ok send_ok : Bool)
    (hpos : 0 < st.telegram_update_interval) :
    ((process_block st current_block subnets stake_ok send_ok).digest_sent = true ↔
      (st.telegram_update_interval ∣ current_block ∧
        (alloc_phase st current_block subnets stake_ok).2.2.1 ≠ [])) ∧
    ((process_block st current_block subnets stake_ok send_ok).digest_sent = true →
      (process_block st current_block subnets stake_ok send_ok).purchase_history = []) ∧
    ((process_block st current_block subnets stake_ok send_ok).digest_sent = false →
      (process_block st current_block subnets stake_ok send_ok).purchase_history
        = (alloc_phase st current_block subnets stake_ok).2.2.1) := by
  have _hk := hpos
  have hdvd : st.telegram_update_interval ∣ current_block ↔
      current_block % st.telegram_update_interval = 0 :=
    Nat.dvd_iff_mod_eq_zero
  by_cases hc : current_block % st.telegram_update_interval = 0 ∧
      (alloc_phase st current_block subnets stake_ok).2.2.1 ≠ []
  · simp [process_block, publish_phase, hc, hdvd]
  · simp [process_block, publish_phase, hc, hdvd]

/-- Witness for C6: interval 10, non-empty batch buffer carried into a
paused cycle at block 20 — the digest condition holds. -/
theorem C6_notification_cadence_witness :
    0 < (10 : Nat) ∧
    ((process_block ⟨[], [], 1, "v", true, 10, none, [], [⟨1, 1, "a", 1, 1, 1⟩]⟩ 20 []
        true true).digest_sent = true ↔
      ((10 : Nat) ∣ 20 ∧
        (alloc_phase ⟨[], [], 1, "v", true, 10, none, [], [⟨1, 1, "a", 1, 1, 1⟩]⟩ 20 []
          true).2.2.1 ≠ [])) :=
  ⟨by norm_num,
   (C6_notification_cadence ⟨[], [], 1, "v", true, 10, none, [], [⟨1, 1, "a", 1, 1, 1⟩]⟩
     20 [] true true (by norm_num)).1⟩

/-- Every first-token verb the if-chain recognizes. -/
def allCmds : List String :=
  ["/pause", "/start", "/balance", "/history",
   "/info", "/boost", "/slash", "/exclude", "/unstake", "/stake", "/amount"]

/-- C4 counterexample: an unknown verb (`"/foo 1"`) produces NO reply at
all — in particular not "invalid command", which is sent only for a
message with no tokens — and `/amount` with its required argument
missing does not produce a usage reply but raises an uncaught
`IndexError` (`parts[1]` outside the `except ValueError` guard). -/
theorem C4_counterexample :
    (handle_telegram_command "/foo 1" 0 ⟨7, [], [], 0, true, true, true, true⟩
      ⟨[], [], 1, "v", false, 10, none, [], []⟩).replies = [] ∧
    (handle_telegram_command "/amount" 0 ⟨7, [], [], 0, true, true, true, true⟩
      ⟨[], [], 1, "v", false, 10, none, [], []⟩).crashed = true := by
  constructor <;> rfl

/-- C4 amended: a tokenless message gets "invalid command"; an
unrecognized verb gets no reply and no mutation; the six netuid
commands reply usage on a missing or non-numeric netuid; `/unstake` and
`/stake` reply usage on a missing or non-numeric amount; `/amount`
replies usage on a non-numeric argument but CRASHES (uncaught
IndexError, no reply, no mutation) when the argument is missing. -/
theorem C4_parse_behavior (text : String) (time : ℚ) (gw : GatewayView) (st : BotState) :
    (tokenize text = [] →
      handle_telegram_command text time gw st = ⟨[.invalid], st, [], false, false⟩) ∧
    (∀ c rest, tokenize text = c :: rest → strToLower c ∉ allCmds →
      handle_telegram_command text time gw st = ⟨[], st, [], false, false⟩) ∧
    (∀ c, tokenize text = [c] → strToLower c ∈ netuidCmds →
      handle_telegram_command text time gw st = ⟨[.usageNetuid], st, [], false, false⟩) ∧
    (∀ c a rest, tokenize text = c :: a :: rest → strToLower c ∈ netuidCmds →
      parseInt? a = none →
      handle_telegram_command text time gw st = ⟨[.usageNumericNetuid], st, [], false, false⟩) ∧
    (∀ c a n, tokenize text = [c, a] →
      (strToLower c = "/unstake" ∨ strToLower c = "/stake") → parseInt? a = some n →
      handle_telegram_command text time gw st =
        ⟨[if strToLower c = "/unstake" then .usageUnstakeArgs else .usageStakeArgs],
         st, [], false, false⟩) ∧
    (∀ c a b rest n, tokenize text = c :: a :: b :: rest →
      (strToLower c = "/unstake" ∨ strToLower c = "/stake") → parseInt? a = some n →
      parseRat? b = none →
      handle_telegram_command text time gw st =
        ⟨[if strToLower c = "/unstake" then .usageUnstakeNumeric else .usageStakeNumeric],
         st, [], false, false⟩) ∧
    (∀ c, tokenize text = [c] → strToLower c = "/amount" →
      handle_telegram_command text time gw st = ⟨[], st, [], true, false⟩) ∧
    (∀ c a rest, tokenize text = c :: a :: rest → strToLower c = "/amount" →
      parseRat? a = none →
      handle_telegram_command text time gw st = ⟨[.usageAmount], st, [], false, false⟩) := by
  refine ⟨?_, ?_, ?_, ?_, ?_, ?_, ?_, ?_⟩
  · intro h
    simp [handle_telegram_command, h, handle_parts]
  · intro c rest htok hne
    simp only [allCmds, List.mem_cons, List.mem_singleton, not_or] at hne
    obtain ⟨h1, h2, h3, h4, h5, h6, h7, h8, h9, h10, h11⟩ := hne
    simp [handle_telegram_command, htok, handle_parts, netuidCmds,
      h1, h2, h3, h4, h5, h6, h7, h8, h9, h10, h11]
  · intro c htok hmem
    simp [netuidCmds] at hmem
    rcases hmem with h | h | h | h | h | h <;>
      simp [handle_telegram_command, htok, handle_parts, netuidCmds, h, replyOnly]
  · intro c a rest htok hmem hint
    simp [netuidCmds] at hmem
    rcases hmem with h | h | h | h | h | h <;>
      simp [handle_telegram_command, htok, handle_parts, netuidCmds, h, hint, replyOnly]
  · intro c a n htok hc hint
    rcases hc with h | h <;>
      simp [handle_telegram_command, htok, handle_parts, netuidCmds, h, hint,
        handle_unstake, handle_stake_cmd, replyOnly]
  · intro c a b rest n htok hc hint hrat
    rcases hc with h | h <;>
      simp [handle_telegram_command, htok, handle_parts, netuidCmds, h, hint, hrat,
        handle_unstake, handle_stake_cmd, replyOnly]
  · intro c htok hc
    simp [handle_telegram_command, htok, handle_parts, netuidCmds, hc, handle_amount]
  · intro c a rest htok hc hrat
    simp [handle_telegram_command, htok, handle_parts, netuidCmds, hc, hrat,
      handle_amount, replyOnly]

/-- Witness for C4's amended statement at concrete inputs: "/foo 1" is
silently ignored, "/boost abc" gets the numeric-netuid usage reply. -/
theorem C4_parse_behavior_witness :
    (handle_telegram_command "/foo 1" 0 ⟨7, [], [], 0, true, true, true, true⟩
      ⟨[], [], 2, "v", false, 10, none, [], []⟩ = ⟨[], ⟨[], [], 2, "v", false, 10, none, [], []⟩, [], false, false⟩) ∧
    (handle_telegram_command "/boost abc" 0 ⟨7, [], [], 0, true, true, true, true⟩
      ⟨[], [], 2, "v", false, 10, none, [], []⟩
        = ⟨[.usageNumericNetuid], ⟨[], [], 2, "v", false, 10, none, [], []⟩, [], false, false⟩) := by
  constructor
  · exact (C4_parse_behavior "/foo 1" 0 ⟨7, [], [], 0, true, true, true, true⟩
      ⟨[], [], 2, "v", false, 10, none, [], []⟩).2.1 "/foo" ["1"] (by rfl) (by decide)
  · exact (C4_parse_behavior "/boost abc" 0 ⟨7, [], [], 0, true, true, true, true⟩
      ⟨[], [], 2, "v", false, 10, none, [], []⟩).2.2.2.1 "/boost" "abc" []
      (by rfl) (by decide) (by rfl)

/-- C5 counterexample: a successful fetch delivering one message,
`"/amount"` with no argument, makes the handler raise an uncaught
IndexError; the poll loop has no try/except around the handler, so the
control cycle dies instead of continuing. -/
theorem C5_counterexample :
    poll_iteration (.ok [⟨0, some "/amount"⟩]) 0 ⟨7, [], [], 0, true, true, true, true⟩
      ⟨[], [], 1, "v", false, 10, none, [], []⟩ 0
      = .died ⟨[], [], 1, "v", false, 10, none, [], []⟩ 1 := by rfl

/-- C5 amended: only errors of the polling fetch itself are caught (the
cycle logs and keeps polling with unchanged state and cursor); an error
raised inside the command handler propagates out of the poll loop and
terminates the control cycle. -/
theorem C5_poll_containment (e : String) (time : ℚ) (gw : GatewayView) (st : BotState)
    (offset : Int) (u : TgUpdate) (us : List TgUpdate) :
    poll_iteration (.error e) time gw st offset = .continued st offset ∧
    (∀ t, u.text = some t → (handle_telegram_command t time gw st).crashed = true →
      poll_iteration (.ok (u :: us)) time gw st offset
        = .died (handle_telegram_command t time gw st).st (max offset (u.update_id + 1))) ∧
    (∀ t, u.text = some t → (handle_telegram_command t time gw st).crashed = false →
      poll_iteration (.ok (u :: us)) time gw st offset
        = poll_process us time gw (handle_telegram_command t time gw st).st
            (max offset (u.update_id + 1))) := by
  refine ⟨rfl, ?_, ?_⟩
  · intro t htext hcrash
    simp [poll_iteration, poll_process, htext, hcrash]
  · intro t htext hcrash
    simp [poll_iteration, poll_process, htext, hcrash]

/-- Witness for C5's amended statement: a fetch error continues with
untouched cursor; the crashing `/amount` message kills the cycle. -/
theorem C5_poll_containment_witness :
    poll_iteration (.error "boom") 0 ⟨7, [], [], 0, true, true, true, true⟩
      ⟨[], [], 1, "v", false, 10, none, [], []⟩ 4
      = .continued ⟨[], [], 1, "v", false, 10, none, [], []⟩ 4 ∧
    poll_iteration (.ok [⟨2, some "/amount"⟩]) 0 ⟨7, [], [], 0, true, true, true, true⟩
      ⟨[], [], 1, "v", false, 10, none, [], []⟩ 0
      = .died (handle_telegram_command "/amount" 0 ⟨7, [], [], 0, true, true, true, true⟩
          ⟨[], [], 1, "v", false, 10, none, [], []⟩).st (max 0 (2 + 1)) := by
  constructor
  · exact (C5_poll_containment "boom" 0 ⟨7, [], [], 0, true, true, true, true⟩
      ⟨[], [], 1, "v", false, 10, none, [], []⟩ 4 ⟨0, none⟩ []).1
  · exact (C5_poll_containment "x" 0 ⟨7, [], [], 0, true, true, true, true⟩
      ⟨[], [], 1, "v", false, 10, none, [], []⟩ 0 ⟨2, some "/amount"⟩ []).2.1
      "/amount" rfl (by rfl)

/-- C7: the first `/history` with no prior snapshot stores the current
state as the snapshot and replies the no-history notice (a reply that
carries no PnL figure), leaving the accumulated buffer and the batch
buffer unchanged; with a prior snapshot it replies elapsed time,
elapsed blocks, the accumulated-buffer sum and PnL, then replaces the
snapshot and clears only the accumulated buffer; an immediately
following invocation therefore reports zero amount staked. -/
theorem C7_history_lifecycle (time time2 : ℚ) (gw gw2 : GatewayView) (st : BotState)
    (hacq : gw.acquire_ok = true) (hq : gw.query_ok = true)
    (hacq2 : gw2.acquire_ok = true) (hq2 : gw2.query_ok = true) :
    (st.last_history_snapshot = none →
      handle_history time gw st =
        ⟨[.historyNoPrev],
         { st with last_history_snapshot := some (history_snapshot time gw) },
         [], false, false⟩) ∧
    (∀ prev, st.last_history_snapshot = some prev →
      handle_history time gw st =
        ⟨[.historySummary (time - prev.time)
            ((gw.current_block : Int) - (prev.block : Int))
            ((st.accumulated_history.map PurchaseEvent.stake_amount).sum)
            (total_of (current_stakes_map gw.stake_info) - total_of prev.stakes)
            ((gw.wallet_balance + (history_snapshot time gw).stake_value)
              - (prev.wallet_balance + prev.stake_value))
            (history_increases prev.stakes (current_stakes_map gw.stake_info))],
         { st with last_history_snapshot := some (history_snapshot time gw),
                   accumulated_history := [] },
         [], false, false⟩) ∧
    (∀ prev, st.last_history_snapshot = some prev →
      ∃ bd sd pnl inc,
        (handle_history time2 gw2 (handle_history time gw st).st).replies
          = [.historySummary (time2 - time) bd 0 sd pnl inc]) := by
  refine ⟨?_, ?_, ?_⟩
  · intro hnone
    simp [handle_history, hacq, hq, hnone]
  · intro prev hprev
    simp [handle_history, hacq, hq, hprev]
  · intro prev hprev
    have h2 : (handle_history time gw st).st =
        { st with last_history_snapshot := some (history_snapshot time gw),
                  accumulated_history := [] } := by
      simp [handle_history, hacq, hq, hprev]
    refine ⟨(gw2.current_block : Int) - (gw.current_block : Int),
      total_of (current_stakes_map gw2.stake_info)
        - total_of (current_stakes_map gw.stake_info),
      (gw2.wallet_balance + (history_snapshot time2 gw2).stake_value)
        - (gw.wallet_balance + (history_snapshot time gw).stake_value),
      history_increases (current_stakes_map gw.stake_info)
        (current_stakes_map gw2.stake_info), ?_⟩
    rw [h2]
    simp [handle_history, hacq2, hq2, history_snapshot]

/-- Witness for C7 at a concrete state with no prior snapshot. -/
theorem C7_history_lifecycle_witness :
    handle_history 3 ⟨1, [⟨1, "a", 2, 1, "x"⟩], [⟨1, 1, "hk"⟩], 0, true, true, true, true⟩
      ⟨[], [], 1, "v", false, 10, none, [], []⟩ =
      ⟨[.historyNoPrev],
       { (⟨[], [], 1, "v", false, 10, none, [], []⟩ : BotState) with
          last_history_snapshot := some (history_snapshot 3
            ⟨1, [⟨1, "a", 2, 1, "x"⟩], [⟨1, 1, "hk"⟩], 0, true, true, true, true⟩) },
       [], false, false⟩ :=
  (C7_history_lifecycle 3 0 ⟨1, [⟨1, "a", 2, 1, "x"⟩], [⟨1, 1, "hk"⟩], 0, true, true, true, true⟩
    ⟨1, [], [], 0, true, true, true, true⟩ ⟨[], [], 1, "v", false, 10, none, [], []⟩
    rfl rfl rfl rfl).1 rfl

/-- The PnL formula exactly as the spec's sentence states it: BOTH
sides of the comparison valued at CURRENT prices (the prior snapshot's
stake amounts multiplied by today's prices). -/
def claimed_pnl (gw : GatewayView) (prev : HistorySnapshot) : ℚ :=
  (gw.wallet_balance + stake_value_of gw.subnets (current_stakes_map gw.stake_info))
    - (prev.wallet_balance + stake_value_of gw.subnets prev.stakes)

/-- C8 counterexample: stake 1 on subnet 1, price 2 at the first
`/history`, price 3 at the second.  The code reports PnL 1 (it reuses
the stake value stored in the prior snapshot, valued at price 2); the
claim's formula — prior stakes at current prices — yields 0. -/
theorem C8_counterexample :
    (handle_history 5 ⟨2, [⟨1, "a", 3, 1, "x"⟩], [⟨1, 1, "hk"⟩], 0, true, true, true, true⟩
      (handle_history 0 ⟨1, [⟨1, "a", 2, 1, "x"⟩], [⟨1, 1, "hk"⟩], 0, true, true, true, true⟩
        ⟨[], [], 1, "v", false, 10, none, [], []⟩).st).replies
      = [.historySummary 5 1 0 0 1 []] ∧
    claimed_pnl ⟨2, [⟨1, "a", 3, 1, "x"⟩], [⟨1, 1, "hk"⟩], 0, true, true, true, true⟩
      ⟨0, 1, 0, 2, [(1, 1)]⟩ = 0 ∧
    (handle_history 0 ⟨1, [⟨1, "a", 2, 1, "x"⟩], [⟨1, 1, "hk"⟩], 0, true, true, true, true⟩
      ⟨[], [], 1, "v", false, 10, none, [], []⟩).st.last_history_snapshot
      = some ⟨0, 1, 0, 2, [(1, 1)]⟩ := by
  refine ⟨?_, ?_, ?_⟩ <;>
    norm_num [handle_history, history_snapshot, claimed_pnl, current_stakes_map,
      stake_value_of, subnet_info_map, alistSet, alistGet?, total_of, history_increases]

/-- C8 amended: the reported PnL equals (current wallet + current
aggregate stake value at current prices) minus (prior wallet + the
aggregate stake value STORED in the prior snapshot); and a snapshot the
handler stores carries the valuation computed from its own cycle's
prices — so the prior side is valued at the prior snapshot's prices,
not at current prices. -/
theorem C8_pnl_uses_stored_prior_value (time : ℚ) (gw : GatewayView) (st : BotState)
    (prev : HistorySnapshot) (hacq : gw.acquire_ok = true) (hq : gw.query_ok = true)
    (hprev : st.last_history_snapshot = some prev) :
    (∃ td bd amt sd inc,
      (handle_history time gw st).replies
        = [.historySummary td bd amt sd
            ((gw.wallet_balance
              + stake_value_of gw.subnets (current_stakes_map gw.stake_info))
              - (prev.wallet_balance + prev.stake_value)) inc]) ∧
    (history_snapshot time gw).stake_value
      = stake_value_of gw.subnets (current_stakes_map gw.stake_info) := by
  refine ⟨⟨time - prev.time, (gw.current_block : Int) - (prev.block : Int),
    (st.accumulated_history.map PurchaseEvent.stake_amount).sum,
    total_of (current_stakes_map gw.stake_info) - total_of prev.stakes,
    history_increases prev.stakes (current_stakes_map gw.stake_info), ?_⟩, rfl⟩
  simp [handle_history, hacq, hq, hprev, history_snapshot]

/-- Witness for C8's amended statement at the counterexample's second
call. -/
theorem C8_pnl_uses_stored_prior_value_witness :
    ∃ td bd amt sd inc,
      (handle_history 5 ⟨2, [⟨1, "a", 3, 1, "x"⟩], [⟨1, 1, "hk"⟩], 0, true, true, true, true⟩
        ⟨[], [], 1, "v", false, 10, some ⟨0, 1, 0, 2, [(1, 1)]⟩, [], []⟩).replies
        = [.historySummary td bd amt sd
            (((0 : ℚ) + stake_value_of [⟨1, "a", 3, 1, "x"⟩]
                (current_stakes_map [⟨1, 1, "hk"⟩])) - ((0 : ℚ) + 2)) inc] :=
  (C8_pnl_uses_stored_prior_value 5
    ⟨2, [⟨1, "a", 3, 1, "x"⟩], [⟨1, 1, "hk"⟩], 0, true, true, true, true⟩
    ⟨[], [], 1, "v", false, 10, some ⟨0, 1, 0, 2, [(1, 1)]⟩, [], []⟩
    ⟨0, 1, 0, 2, [(1, 1)]⟩ rfl rfl rfl).1

/-- C9: `/balance` after acquiring a handle, with the gateway returning
a non-empty position list holding a positive stake amount: the handler
neither sends a summary nor an error reply — it raises (AttributeError:
the code reads `stake_info.symbol`, an attribute the Python list does
not have) and exits without closing the acquired handle. -/
theorem C9_balance_crash_leaks_handle :
    handle_telegram_command "/balance" 0
      ⟨7, [⟨1, "a", 2, 4, "x"⟩], [⟨1, 5, "hk"⟩], 3, true, true, true, true⟩
      ⟨[], [], 1, "v", false, 10, none, [], []⟩
      = ⟨[], ⟨[], [], 1, "v", false, 10, none, [], []⟩, [], true, true⟩ := by rfl

/-- An endpoint whose three verification attempts all fail. -/
def epFails (behavior : List Bool) : Prop :=
  behavior.getD 0 false = false ∧ behavior.getD 1 false = false ∧
    behavior.getD 2 false = false

instance (behavior : List Bool) : Decidable (epFails behavior) := by
  unfold epFails; infer_instance

/-- Index of the first successful attempt (meaningful when the endpoint
does not fail all three). -/
def firstSuccess (behavior : List Bool) : Nat :=
  if behavior.getD 0 false then 0 else if behavior.getD 1 false then 1 else 2

lemma firstSuccess_lt (behavior : List Bool) : firstSuccess behavior < 3 := by
  unfold firstSuccess
  split
  · norm_num
  · split <;> norm_num

lemma get_and_test_fail (name : String) (b : List Bool) (h : epFails b) :
    get_and_test_subtensor name b
      = (.error (name, 2), [(name, 0), (name, 1), (name, 2)]) := by
  obtain ⟨h0, h1, h2⟩ := h
  simp only [List.getD_eq_getElem?_getD] at h0 h1 h2
  simp [get_and_test_subtensor, tryFrom, h0, h1, h2]

lemma get_and_test_success (name : String) (b : List Bool) (h : ¬ epFails b) :
    get_and_test_subtensor name b
      = (.ok (name, firstSuccess b),
         (List.range (firstSuccess b + 1)).map (fun i => (name, i))) := by
  by_cases h0 : b.getD 0 false = true
  · simp only [List.getD_eq_getElem?_getD] at h0
    simp [get_and_test_subtensor, tryFrom, firstSuccess, h0, List.range_succ]
  · simp only [Bool.not_eq_true] at h0
    by_cases h1 : b.getD 1 false = true
    · simp only [List.getD_eq_getElem?_getD] at h0 h1
      simp [get_and_test_subtensor, tryFrom, firstSuccess, h0, h1, List.range_succ]
    · simp only [Bool.not_eq_true] at h1
      have h2 : b.getD 2 false = true := by
        by_contra hc
        simp only [Bool.not_eq_true] at hc
        exact h ⟨h0, h1, hc⟩
      simp only [List.getD_eq_getElem?_getD] at h0 h1 h2
      simp [get_and_test_subtensor, tryFrom, firstSuccess, h0, h1, h2, List.range_succ]

/-- The error `get_working_subtensor` terminates with: the last tried
endpoint's final error, or the carried value when no endpoint exists. -/
def lastErrD : List (String × List Bool) → Option (String × Nat) → Option (String × Nat)
  | [], e => e
  | p :: rest, _ => lastErrD rest (some (p.1, 2))

lemma lastErrD_append (q : String × List Bool) :
    ∀ (l1 : List (String × List Bool)) (e : Option (String × Nat)),
      lastErrD (l1 ++ [q]) e = some (q.1, 2) := by
  intro l1
  induction l1 with
  | nil => intro e; rfl
  | cons p rest ih => intro e; simp [lastErrD, ih]

lemma get_working_go_all_fail :
    ∀ (l : List (String × List Bool)) (e : Option (String × Nat)),
      (∀ p ∈ l, epFails p.2) →
      get_working_go l e = (.error (lastErrD l e),
        (l.map (fun p => [(p.1, 0), (p.1, 1), (p.1, 2)])).flatten) := by
  intro l
  induction l with
  | nil => intro e _; simp [get_working_go, lastErrD]
  | cons p rest ih =>
    intro e h
    obtain ⟨name, b⟩ := p
    have hf : epFails b := h _ (List.mem_cons_self _ _)
    have hrest : ∀ q ∈ rest, epFails q.2 := fun q hq => h q (List.mem_cons_of_mem _ hq)
    simp [get_working_go, get_and_test_fail name b hf, ih (some (name, 2)) hrest,
      lastErrD]

lemma get_working_go_success (nb : String × List Bool) (l2 : List (String × List Bool))
    (hsucc : ¬ epFails nb.2) :
    ∀ (l1 : List (String × List Bool)) (e : Option (String × Nat)),
      (∀ p ∈ l1, epFails p.2) →
      get_working_go (l1 ++ nb :: l2) e
        = (.ok (nb.1, firstSuccess nb.2),
           (l1.map (fun p => [(p.1, 0), (p.1, 1), (p.1, 2)])).flatten
             ++ (List.range (firstSuccess nb.2 + 1)).map (fun i => (nb.1, i))) := by
  intro l1
  induction l1 with
  | nil =>
    intro e _
    obtain ⟨name, b⟩ := nb
    simp only [Prod.snd] at hsucc
    simp [get_working_go, get_and_test_success name b hsucc]
  | cons p rest ih =>
    intro e h
    obtain ⟨name, b⟩ := p
    have hf : epFails b := h _ (List.mem_cons_self _ _)
    have hrest : ∀ q ∈ rest, epFails q.2 := fun q hq => h q (List.mem_cons_of_mem _ hq)
    simp [get_working_go, get_and_test_fail name b hf, ih (some (name, 2)) hrest]

/-- C10: endpoints are tried in priority (list) order with up to 3
verification attempts each; the returned handle belongs to the first
endpoint that verifies, the attempt trace stops at that success (no
further connection attempts), and its attempt index is below 3; the
call fails only when every endpoint failed all its attempts, and the
terminal failure then carries the last endpoint's last error. -/
theorem C10_failover (endpoints : List (String × List Bool)) :
    (∀ l1 nb l2, endpoints = l1 ++ nb :: l2 →
      (∀ p ∈ l1, epFails p.2) → ¬ epFails nb.2 →
      (get_working_subtensor endpoints).1 = .ok (nb.1, firstSuccess nb.2) ∧
      (get_working_subtensor endpoints).2
        = (l1.map (fun p => [(p.1, 0), (p.1, 1), (p.1, 2)])).flatten
          ++ (List.range (firstSuccess nb.2 + 1)).map (fun i => (nb.1, i)) ∧
      firstSuccess nb.2 < 3) ∧
    ((∀ p ∈ endpoints, epFails p.2) →
      ∀ l1 q, endpoints = l1 ++ [q] →
        (get_working_subtensor endpoints).1 = .error (some (q.1, 2))) := by
  constructor
  · intro l1 nb l2 hsplit hfail hsucc
    have hgo := get_working_go_success nb l2 hsucc l1 none hfail
    unfold get_working_subtensor
    rw [hsplit, hgo]
    exact ⟨rfl, rfl, firstSuccess_lt _⟩
  · intro hall l1 q hlast
    have hgo := get_working_go_all_fail endpoints none hall
    unfold get_working_subtensor
    rw [hgo, hlast, lastErrD_append]

/-- Witness for C10: two always-failing endpoints then one that
verifies on its first attempt yield that endpoint's handle; a single
always-failing endpoint yields the terminal failure carrying its last
error. -/
theorem C10_failover_witness :
    (get_working_subtensor [("finney", [false]), ("subvortex", []),
        ("archive", [true])]).1 = .ok ("archive", firstSuccess [true]) ∧
    firstSuccess [true] < 3 ∧
    (get_working_subtensor [("finney", [false])]).1 = .error (some ("finney", 2)) := by
  have h := (C10_failover [("finney", [false]), ("subvortex", []), ("archive", [true])]).1
    [("finney", [false]), ("subvortex", [])] ("archive", [true]) [] rfl
    (by decide) (by decide)
  refine ⟨h.1, h.2.2, ?_⟩
  exact (C10_failover [("finney", [false])]).2 (by decide) [] ("finney", [false]) rfl

end DynamicBot
